import Mathlib

set_option maxHeartbeats 1000000

/-! Shallow embedding of the SPModbus server core (Go packages handler,
server and config) for checking its natural-language specification.
Machine integers are modelled as Nat, reduced modulo 65536 exactly where Go
uint16 arithmetic can overflow.  Go slice or array indexing that can panic
is modelled with Option, none being the panic.  The structured logger is
modelled by returning the warning events a call emits. -/

namespace SPModbus

/-- One initial_data entry from configuration (config.RegisterValue).  The
Go field named Type is rendered Type' because Type is reserved in Lean.
Address and Value are Go uint16 values, kept as Nat. -/
structure RegisterValue where
  Type' : String
  Address : Nat
  Value : Nat
deriving DecidableEq

/-- config.ModbusConfig.  UnitID is a Go uint8, MaxRegisters a Go int
(assumed nonnegative: a negative value would already make the Go make
builtin panic while allocating the tables), CounterAddress a Go uint16. -/
structure ModbusConfig where
  UnitID : Nat
  MaxRegisters : Nat
  CounterAddress : Nat
  UpdateInterval : Nat
  InitialData : List RegisterValue
deriving DecidableEq

/-- handler.Stats.  StartTime is the opaque timestamp stored once by
time.Now at construction, modelled as 0; nothing ever rewrites it. -/
structure Stats where
  RequestsHandled : Nat
  Errors : Nat
  StartTime : Nat
deriving DecidableEq

/-- handler.ModbusHandler: the four tables, the counter and the statistics.
The logger and the mutex carry no functional state and are omitted. -/
structure ModbusHandler where
  config : ModbusConfig
  holdingRegs : List Nat
  inputRegs : List Nat
  coils : List Bool
  discreteInputs : List Bool
  counter : Nat
  stats : Stats
deriving DecidableEq

/-- Warning events emitted through logger.Warn by the initial-data loop of
handler.NewModbusHandler. -/
inductive SeedWarning where
  | addressOutOfBounds (address : Nat) (max : Nat)
  | unknownType (t : String)
deriving DecidableEq

/-- One iteration of the initial-data loop in handler.NewModbusHandler.
The Go guard data.Address >= uint16(config.MaxRegisters) compares two
uint16 values, so MaxRegisters is truncated modulo 65536 by the
conversion; the Go switch on data.Type is rendered as a chain of string
comparisons. -/
def applyInitialData (h : ModbusHandler) (data : RegisterValue) :
    ModbusHandler × Option SeedWarning :=
  if data.Address ≥ h.config.MaxRegisters % 65536 then
    (h, some (SeedWarning.addressOutOfBounds data.Address h.config.MaxRegisters))
  else if data.Type' = "holding" then
    ({ h with holdingRegs := h.holdingRegs.set data.Address data.Value }, none)
  else if data.Type' = "input" then
    ({ h with inputRegs := h.inputRegs.set data.Address data.Value }, none)
  else if data.Type' = "coil" then
    ({ h with coils := h.coils.set data.Address (data.Value != 0) }, none)
  else if data.Type' = "discrete" then
    ({ h with discreteInputs := h.discreteInputs.set data.Address (data.Value != 0) }, none)
  else
    (h, some (SeedWarning.unknownType data.Type'))

/-- Folding step over config.InitialData: handler state together with the
warnings accumulated so far. -/
def seedStep (acc : ModbusHandler × List SeedWarning) (data : RegisterValue) :
    ModbusHandler × List SeedWarning :=
  let r := applyInitialData acc.1 data
  (r.1, acc.2 ++ r.2.toList)

/-- handler.NewModbusHandler.  Returns the constructed handler together
with the seed warnings that were logged.  After the seed loop the Go code
runs the unguarded statement h.holdingRegs[config.CounterAddress] = 0,
which panics with index out of range when CounterAddress is not below
MaxRegisters; that panic is modelled by none. -/
def NewModbusHandler (config : ModbusConfig) :
    Option (ModbusHandler × List SeedWarning) :=
  let h0 : ModbusHandler :=
    { config := config
      holdingRegs := List.replicate config.MaxRegisters 0
      inputRegs := List.replicate config.MaxRegisters 0
      coils := List.replicate config.MaxRegisters false
      discreteInputs := List.replicate config.MaxRegisters false
      counter := 0
      stats := { RequestsHandled := 0, Errors := 0, StartTime := 0 } }
  let seeded := config.InitialData.foldl seedStep (h0, [])
  if config.CounterAddress < seeded.1.holdingRegs.length then
    some ({ seeded.1 with
              holdingRegs := seeded.1.holdingRegs.set config.CounterAddress 0 },
          seeded.2)
  else
    none

/-- handler.UpdateCounter.  The Bool is true exactly when the counter
overflow warning is logged.  The uint16 increment h.counter++ is the
successor modulo 65536.  The Go assignments into holdingRegs at
CounterAddress are in range for every handler NewModbusHandler can
produce; List.set is inert out of range, a state no constructed handler
reaches. -/
def UpdateCounter (h : ModbusHandler) : ModbusHandler × Bool :=
  let c1 := (h.counter + 1) % 65536
  let h1 := { h with counter := c1,
                     holdingRegs := h.holdingRegs.set h.config.CounterAddress c1 }
  if c1 = 0 then
    ({ h1 with counter := 1,
               holdingRegs := h1.holdingRegs.set h.config.CounterAddress 1 }, true)
  else
    (h1, false)

/-- handler.GetStats: a snapshot of the statistics fields. -/
def GetStats (h : ModbusHandler) : Stats :=
  { RequestsHandled := h.stats.RequestsHandled
    Errors := h.stats.Errors
    StartTime := h.stats.StartTime }

/-- The two modbus exception values the handler returns
(modbus.ErrIllegalFunction and modbus.ErrIllegalDataAddress). -/
inductive ModbusError where
  | ErrIllegalFunction
  | ErrIllegalDataAddress
deriving DecidableEq

/-- modbus.HoldingRegistersRequest, the fields the handler reads. -/
structure HoldingRegistersRequest where
  UnitId : Nat
  Addr : Nat
  Quantity : Nat
  IsWrite : Bool
  Args : List Nat
deriving DecidableEq

/-- modbus.InputRegistersRequest, the fields the handler reads. -/
structure InputRegistersRequest where
  UnitId : Nat
  Addr : Nat
  Quantity : Nat
deriving DecidableEq

/-- modbus.CoilsRequest, the fields the handler reads. -/
structure CoilsRequest where
  UnitId : Nat
  Addr : Nat
  Quantity : Nat
  IsWrite : Bool
  Args : List Bool
deriving DecidableEq

/-- modbus.DiscreteInputsRequest, the fields the handler reads. -/
structure DiscreteInputsRequest where
  UnitId : Nat
  Addr : Nat
  Quantity : Nat
deriving DecidableEq

/-- Body of the for loop of handler.HandleHoldingRegisters, processing
quantity indices i, i+1, ... in ascending order.  Go indexing req.Args[i]
and h.holdingRegs[addr] panics out of range (none); a write is skipped,
and Args not consulted, when the Go test uint16(addr) != CounterAddress
fails — the int loop address is truncated modulo 65536 by the conversion
before the comparison.  Every iteration appends the post-write register
value. -/
def holdingLoop (counterAddress : Nat) (isWrite : Bool) (args : List Nat)
    (startAddr : Nat) : Nat → Nat → List Nat → Option (List Nat × List Nat)
  | _, 0, regs => some (regs, [])
  | i, q + 1, regs =>
    let addr := startAddr + i
    let written : Option (List Nat) :=
      if isWrite then
        if addr % 65536 ≠ counterAddress then
          match args[i]? with
          | none => none
          | some v => some (regs.set addr v)
        else some regs
      else some regs
    match written with
    | none => none
    | some regs' =>
      match regs'[addr]? with
      | none => none
      | some x =>
        match holdingLoop counterAddress isWrite args startAddr (i + 1) q regs' with
        | none => none
        | some (regsF, res) => some (regsF, x :: res)

/-- handler.HandleHoldingRegisters.  The result pairs the post state with
the reply: Except.ok carries the returned register values, Except.error the
modbus exception.  none models a Go panic inside the loop. -/
def HandleHoldingRegisters (h : ModbusHandler) (req : HoldingRegistersRequest) :
    Option (ModbusHandler × Except ModbusError (List Nat)) :=
  let h := { h with stats :=
    { h.stats with RequestsHandled := h.stats.RequestsHandled + 1 } }
  if req.UnitId ≠ h.config.UnitID then
    some ({ h with stats := { h.stats with Errors := h.stats.Errors + 1 } },
          Except.error ModbusError.ErrIllegalFunction)
  else if req.Addr + req.Quantity > h.holdingRegs.length then
    some ({ h with stats := { h.stats with Errors := h.stats.Errors + 1 } },
          Except.error ModbusError.ErrIllegalDataAddress)
  else
    match holdingLoop h.config.CounterAddress req.IsWrite req.Args req.Addr
        0 req.Quantity h.holdingRegs with
    | none => none
    | some (regs', res) =>
      some ({ h with holdingRegs := regs' }, Except.ok res)

/-- Body of the read-only loop of handler.HandleInputRegisters and
handler.HandleDiscreteInputs: collects quantity values starting at addr,
in ascending order; none models the Go indexing panic. -/
def readLoop (regs : List α) (addr : Nat) : Nat → Option (List α)
  | 0 => some []
  | q + 1 =>
    match regs[addr]? with
    | none => none
    | some x =>
      match readLoop regs (addr + 1) q with
      | none => none
      | some rest => some (x :: rest)

/-- handler.HandleInputRegisters: identity check, bounds check, then a
read-only sweep of the input table. -/
def HandleInputRegisters (h : ModbusHandler) (req : InputRegistersRequest) :
    Option (ModbusHandler × Except ModbusError (List Nat)) :=
  let h := { h with stats :=
    { h.stats with RequestsHandled := h.stats.RequestsHandled + 1 } }
  if req.UnitId ≠ h.config.UnitID then
    some ({ h with stats := { h.stats with Errors := h.stats.Errors + 1 } },
          Except.error ModbusError.ErrIllegalFunction)
  else if req.Addr + req.Quantity > h.inputRegs.length then
    some ({ h with stats := { h.stats with Errors := h.stats.Errors + 1 } },
          Except.error ModbusError.ErrIllegalDataAddress)
  else
    match readLoop h.inputRegs req.Addr req.Quantity with
    | none => none
    | some res => some (h, Except.ok res)

/-- Body of the for loop of handler.HandleCoils: like the holding loop but
with no protected address, so every write consults req.Args. -/
def coilsLoop (isWrite : Bool) (args : List Bool) (startAddr : Nat) :
    Nat → Nat → List Bool → Option (List Bool × List Bool)
  | _, 0, cs => some (cs, [])
  | i, q + 1, cs =>
    let addr := startAddr + i
    let written : Option (List Bool) :=
      if isWrite then
        match args[i]? with
        | none => none
        | some v => some (cs.set addr v)
      else some cs
    match written with
    | none => none
    | some cs' =>
      match cs'[addr]? with
      | none => none
      | some x =>
        match coilsLoop isWrite args startAddr (i + 1) q cs' with
        | none => none
        | some (csF, res) => some (csF, x :: res)

/-- handler.HandleCoils. -/
def HandleCoils (h : ModbusHandler) (req : CoilsRequest) :
    Option (ModbusHandler × Except ModbusError (List Bool)) :=
  let h := { h with stats :=
    { h.stats with RequestsHandled := h.stats.RequestsHandled + 1 } }
  if req.UnitId ≠ h.config.UnitID then
    some ({ h with stats := { h.stats with Errors := h.stats.Errors + 1 } },
          Except.error ModbusError.ErrIllegalFunction)
  else if req.Addr + req.Quantity > h.coils.length then
    some ({ h with stats := { h.stats with Errors := h.stats.Errors + 1 } },
          Except.error ModbusError.ErrIllegalDataAddress)
  else
    match coilsLoop req.IsWrite req.Args req.Addr 0 req.Quantity h.coils with
    | none => none
    | some (cs', res) =>
      some ({ h with coils := cs' }, Except.ok res)

/-- handler.HandleDiscreteInputs: identity check, bounds check, then a
read-only sweep of the discrete-input table. -/
def HandleDiscreteInputs (h : ModbusHandler) (req : DiscreteInputsRequest) :
    Option (ModbusHandler × Except ModbusError (List Bool)) :=
  let h := { h with stats :=
    { h.stats with RequestsHandled := h.stats.RequestsHandled + 1 } }
  if req.UnitId ≠ h.config.UnitID then
    some ({ h with stats := { h.stats with Errors := h.stats.Errors + 1 } },
          Except.error ModbusError.ErrIllegalFunction)
  else if req.Addr + req.Quantity > h.discreteInputs.length then
    some ({ h with stats := { h.stats with Errors := h.stats.Errors + 1 } },
          Except.error ModbusError.ErrIllegalDataAddress)
  else
    match readLoop h.discreteInputs req.Addr req.Quantity with
    | none => none
    | some res => some (h, Except.ok res)

/-- Outcome of server.Start in the modelled (never cancelled) runs. -/
inductive StartOutcome where
  | started
  | maxRetriesExceeded (max : Nat)
deriving DecidableEq

/-- server.Start with the context never cancelled, instrumented with the
number of startServer attempts made and the number of retry-delay waits
performed.  startFails k tells whether the k-th attempt (0 based) fails.
fuel bounds the otherwise unbounded Go for loop; none means the fuel ran
out before the loop returned. -/
def Start (maxRetries : Nat) (startFails : Nat → Bool) :
    Nat → Nat → Nat → Nat → Option (StartOutcome × Nat × Nat)
  | 0, _, _, _ => none
  | fuel + 1, retryCount, attempts, waits =>
    if 0 < retryCount ∧ maxRetries ≤ retryCount then
      some (StartOutcome.maxRetriesExceeded maxRetries, attempts, waits)
    else
      let waits' := if 0 < retryCount then waits + 1 else waits
      if startFails attempts then
        Start maxRetries startFails fuel (retryCount + 1) (attempts + 1) waits'
      else
        some (StartOutcome.started, attempts + 1, waits')

/-- Iterated counter updates: the state after n timer ticks. -/
def updateCounterIter (h : ModbusHandler) : Nat → ModbusHandler
  | 0 => h
  | n + 1 => (UpdateCounter (updateCounterIter h n)).1

/-- The four tables of a handler, for stating frame conditions. -/
def tablesOf (h : ModbusHandler) : List Nat × List Nat × List Bool × List Bool :=
  (h.holdingRegs, h.inputRegs, h.coils, h.discreteInputs)

/-- Reply and post-state tables of a holding-register invocation. -/
def holdingResult (h : ModbusHandler) (req : HoldingRegistersRequest) :
    Option (Except ModbusError (List Nat) ×
      (List Nat × List Nat × List Bool × List Bool)) :=
  (HandleHoldingRegisters h req).map (fun p => (p.2, tablesOf p.1))

/-- Reply and post-state tables of an input-register invocation. -/
def inputResult (h : ModbusHandler) (req : InputRegistersRequest) :
    Option (Except ModbusError (List Nat) ×
      (List Nat × List Nat × List Bool × List Bool)) :=
  (HandleInputRegisters h req).map (fun p => (p.2, tablesOf p.1))

/-- Reply and post-state tables of a coils invocation. -/
def coilsResult (h : ModbusHandler) (req : CoilsRequest) :
    Option (Except ModbusError (List Bool) ×
      (List Nat × List Nat × List Bool × List Bool)) :=
  (HandleCoils h req).map (fun p => (p.2, tablesOf p.1))

/-- Reply and post-state tables of a discrete-input invocation. -/
def discreteResult (h : ModbusHandler) (req : DiscreteInputsRequest) :
    Option (Except ModbusError (List Bool) ×
      (List Nat × List Nat × List Bool × List Bool)) :=
  (HandleDiscreteInputs h req).map (fun p => (p.2, tablesOf p.1))

/-- Statistics after a holding-register invocation. -/
def statsAfterHolding (h : ModbusHandler) (req : HoldingRegistersRequest) :
    Option Stats :=
  (HandleHoldingRegisters h req).map (fun p => p.1.stats)

/-- Statistics after an input-register invocation. -/
def statsAfterInput (h : ModbusHandler) (req : InputRegistersRequest) :
    Option Stats :=
  (HandleInputRegisters h req).map (fun p => p.1.stats)

/-- Statistics after a coils invocation. -/
def statsAfterCoils (h : ModbusHandler) (req : CoilsRequest) : Option Stats :=
  (HandleCoils h req).map (fun p => p.1.stats)

/-- Statistics after a discrete-input invocation. -/
def statsAfterDiscrete (h : ModbusHandler) (req : DiscreteInputsRequest) :
    Option Stats :=
  (HandleDiscreteInputs h req).map (fun p => p.1.stats)

/-- Single-register write at address a with matching identity, immediately
followed by a single-register read of the same address; the reply of the
read. -/
def writeThenReadHolding (h : ModbusHandler) (a v : Nat) :
    Option (Except ModbusError (List Nat)) :=
  (HandleHoldingRegisters h
      { UnitId := h.config.UnitID, Addr := a, Quantity := 1,
        IsWrite := true, Args := [v] }).bind
    (fun p =>
      (HandleHoldingRegisters p.1
          { UnitId := p.1.config.UnitID, Addr := a, Quantity := 1,
            IsWrite := false, Args := [] }).map Prod.snd)

/-- The holding table right after a single-register write at address a. -/
def holdingTableAfterWrite (h : ModbusHandler) (a v : Nat) :
    Option (List Nat) :=
  (HandleHoldingRegisters h
      { UnitId := h.config.UnitID, Addr := a, Quantity := 1,
        IsWrite := true, Args := [v] }).map (fun p => p.1.holdingRegs)

/-- Single-coil write at address a with matching identity, immediately
followed by a single-coil read of the same address; the reply of the
read. -/
def writeThenReadCoils (h : ModbusHandler) (a : Nat) (b : Bool) :
    Option (Except ModbusError (List Bool)) :=
  (HandleCoils h
      { UnitId := h.config.UnitID, Addr := a, Quantity := 1,
        IsWrite := true, Args := [b] }).bind
    (fun p =>
      (HandleCoils p.1
          { UnitId := p.1.config.UnitID, Addr := a, Quantity := 1,
            IsWrite := false, Args := [] }).map Prod.snd)

/-- Warnings logged by a construction run. -/
def seedResultWarnings (cfg : ModbusConfig) : Option (List SeedWarning) :=
  (NewModbusHandler cfg).map Prod.snd

/-- In-memory counter of a freshly constructed handler. -/
def seedResultCounter (cfg : ModbusConfig) : Option Nat :=
  (NewModbusHandler cfg).map (fun p => p.1.counter)

/-- Holding-table slot a of a freshly constructed handler. -/
def seedResultHoldingAt (cfg : ModbusConfig) (a : Nat) : Option Nat :=
  (NewModbusHandler cfg).map (fun p => p.1.holdingRegs.getD a 0)

/-- Input-table slot a of a freshly constructed handler. -/
def seedResultInputAt (cfg : ModbusConfig) (a : Nat) : Option Nat :=
  (NewModbusHandler cfg).map (fun p => p.1.inputRegs.getD a 0)

/-- Coil slot a of a freshly constructed handler. -/
def seedResultCoilAt (cfg : ModbusConfig) (a : Nat) : Option Bool :=
  (NewModbusHandler cfg).map (fun p => p.1.coils.getD a false)

/-- Discrete-input slot a of a freshly constructed handler. -/
def seedResultDiscreteAt (cfg : ModbusConfig) (a : Nat) : Option Bool :=
  (NewModbusHandler cfg).map (fun p => p.1.discreteInputs.getD a false)

/-- Specification-level predicate, following the words of the spec list of
seed entries: entry d targets table kind at address a and passes the
in-range test the code performs (the uint16 truncation of MaxRegisters). -/
def seedHits (cfg : ModbusConfig) (kind : String) (a : Nat)
    (d : RegisterValue) : Bool :=
  decide (d.Address < cfg.MaxRegisters % 65536) && (d.Type' == kind)
    && (d.Address == a)

/-- Specification-level value of a 16-bit table slot after seeding: the last
applicable entry wins, default 0. -/
def seedValueNat (cfg : ModbusConfig) (kind : String) (a : Nat) : Nat :=
  cfg.InitialData.foldl
    (fun acc d => if seedHits cfg kind a d then d.Value else acc) 0

/-- Specification-level value of a boolean table slot after seeding: the
last applicable entry wins, default false. -/
def seedValueBool (cfg : ModbusConfig) (kind : String) (a : Nat) : Bool :=
  cfg.InitialData.foldl
    (fun acc d => if seedHits cfg kind a d then d.Value != 0 else acc) false

/-- Specification-level warning for one seed entry, following the words of
the spec: skipped entries are logged, for an address failing the in-range
check the code performs or for an unrecognized table kind. -/
def warnOf (cfg : ModbusConfig) (d : RegisterValue) : Option SeedWarning :=
  if d.Address ≥ cfg.MaxRegisters % 65536 then
    some (SeedWarning.addressOutOfBounds d.Address cfg.MaxRegisters)
  else if d.Type' = "holding" then none
  else if d.Type' = "input" then none
  else if d.Type' = "coil" then none
  else if d.Type' = "discrete" then none
  else some (SeedWarning.unknownType d.Type')

/-- Reply classification: true exactly on a modbus exception reply. -/
def exceptIsError : Except ModbusError α → Bool
  | Except.error _ => true
  | Except.ok _ => false

/-- How one handler invocation moves the statistics: the total-requests
counter grows by exactly one, the error counter by one exactly on a
rejected request, the start timestamp is untouched, and the error counter
never exceeds the total-requests counter once below it. -/
def StatsAdvance (s s' : Stats) (isErr : Bool) : Prop :=
  s'.RequestsHandled = s.RequestsHandled + 1 ∧
  s'.Errors = (if isErr then s.Errors + 1 else s.Errors) ∧
  s'.StartTime = s.StartTime ∧
  s.Errors ≤ s'.Errors ∧
  (s.Errors ≤ s.RequestsHandled → s'.Errors ≤ s'.RequestsHandled)

/-- Test configuration in the style of handler_test.go: identity 1, a
20-slot table, counter at address 5, no seed entries. -/
def cfgT : ModbusConfig :=
  { UnitID := 1, MaxRegisters := 20, CounterAddress := 5,
    UpdateInterval := 1, InitialData := [] }

/-- The handler NewModbusHandler builds from cfgT. -/
def hT : ModbusHandler :=
  { config := cfgT
    holdingRegs := List.replicate 20 0
    inputRegs := List.replicate 20 0
    coils := List.replicate 20 false
    discreteInputs := List.replicate 20 false
    counter := 0
    stats := { RequestsHandled := 0, Errors := 0, StartTime := 0 } }

/-- The post state of a rejected request against hT: both statistics
counters advanced once, everything else untouched. -/
def hTrejected : ModbusHandler :=
  { hT with stats := { RequestsHandled := 1, Errors := 1, StartTime := 0 } }

/-- Configuration whose MaxRegisters exceeds 65535, exposing the uint16
truncation in the seed-skip check: 65546 mod 65536 = 10, so the in-range
seed entry at address 100 is skipped. -/
def cfgC5 : ModbusConfig :=
  { UnitID := 1, MaxRegisters := 65546, CounterAddress := 0,
    UpdateInterval := 1,
    InitialData := [{ Type' := "holding", Address := 100, Value := 7 }] }

/-- Configuration violating the counter-address precondition. -/
def cfgBad : ModbusConfig :=
  { UnitID := 1, MaxRegisters := 3, CounterAddress := 5,
    UpdateInterval := 1, InitialData := [] }

/-- A second configuration violating the counter-address precondition. -/
def cfgBad2 : ModbusConfig :=
  { UnitID := 1, MaxRegisters := 4, CounterAddress := 4,
    UpdateInterval := 1, InitialData := [] }

/-- Configuration with one applied, one skipped and one unknown-kind seed
entry. -/
def cfgSeeds : ModbusConfig :=
  { UnitID := 1, MaxRegisters := 20, CounterAddress := 5,
    UpdateInterval := 1,
    InitialData :=
      [{ Type' := "holding", Address := 3, Value := 9 },
       { Type' := "holding", Address := 25, Value := 1 },
       { Type' := "bogus", Address := 2, Value := 1 }] }

/-! Helper lemmas about list indexing. -/

theorem list_getD_set_self (l : List α) (i : Nat) (v d : α)
    (h : i < l.length) : (l.set i v).getD i d = v := by
  induction l generalizing i with
  | nil => simp at h
  | cons x xs ih =>
    cases i with
    | zero => rfl
    | succ n =>
      have hn : n < xs.length := by simpa using h
      simpa [List.getD] using ih n hn

theorem list_getD_set_ne (l : List α) (i j : Nat) (v d : α) (h : i ≠ j) :
    (l.set i v).getD j d = l.getD j d := by
  induction l generalizing i j with
  | nil => rfl
  | cons x xs ih =>
    cases i with
    | zero =>
      cases j with
      | zero => exact absurd rfl h
      | succ m => rfl
    | succ n =>
      cases j with
      | zero => rfl
      | succ m =>
        have : n ≠ m := by
          intro e; exact h (by simpa using congrArg Nat.succ e)
        simpa [List.getD] using ih n m this

theorem list_getD_replicate (n i : Nat) (x d : α) :
    (List.replicate n x).getD i d = if i < n then x else d := by
  induction n generalizing i with
  | zero => simp [List.getD]
  | succ m ih =>
    cases i with
    | zero => simp
    | succ k =>
      have := ih k
      simp only [List.replicate, List.getD_cons_succ, this]
      by_cases hk : k < m <;> simp [hk, Nat.succ_lt_succ_iff]

theorem list_getElem?_isSome (l : List α) (i : Nat) (h : i < l.length) :
    ∃ x, l[i]? = some x := by
  induction l generalizing i with
  | nil => simp at h
  | cons x xs ih =>
    cases i with
    | zero => exact ⟨x, by simp⟩
    | succ n =>
      obtain ⟨y, hy⟩ := ih n (by simpa using h)
      exact ⟨y, by simpa using hy⟩

theorem list_getElem?_none (l : List α) (i : Nat) (h : l.length ≤ i) :
    l[i]? = none := by
  induction l generalizing i with
  | nil => rfl
  | cons x xs ih =>
    cases i with
    | zero => simp at h
    | succ n =>
      have := ih n (by simpa using h)
      simpa using this

theorem list_getElem?_set_self (l : List α) (i : Nat) (v : α)
    (h : i < l.length) : (l.set i v)[i]? = some v := by
  induction l generalizing i with
  | nil => simp at h
  | cons x xs ih =>
    cases i with
    | zero => simp
    | succ n =>
      have := ih n (by simpa using h)
      simpa using this

theorem list_getD_of_getElem? (l : List α) (i : Nat) (d x : α)
    (hx : l[i]? = some x) : l.getD i d = x := by
  induction l generalizing i with
  | nil => simp at hx
  | cons y ys ih =>
    cases i with
    | zero =>
      simp at hx
      simpa [List.getD] using hx
    | succ n =>
      have := ih n (by simpa using hx)
      simpa [List.getD] using this

/-! Lemmas about one seeding step. -/

theorem applyInitialData_config (h : ModbusHandler) (d : RegisterValue) :
    (applyInitialData h d).1.config = h.config := by
  unfold applyInitialData; split_ifs <;> rfl

theorem applyInitialData_counter (h : ModbusHandler) (d : RegisterValue) :
    (applyInitialData h d).1.counter = h.counter := by
  unfold applyInitialData; split_ifs <;> rfl

theorem applyInitialData_holdingLen (h : ModbusHandler) (d : RegisterValue) :
    (applyInitialData h d).1.holdingRegs.length = h.holdingRegs.length := by
  unfold applyInitialData; split_ifs <;> simp

theorem applyInitialData_inputLen (h : ModbusHandler) (d : RegisterValue) :
    (applyInitialData h d).1.inputRegs.length = h.inputRegs.length := by
  unfold applyInitialData; split_ifs <;> simp

theorem applyInitialData_coilsLen (h : ModbusHandler) (d : RegisterValue) :
    (applyInitialData h d).1.coils.length = h.coils.length := by
  unfold applyInitialData; split_ifs <;> simp

theorem applyInitialData_discreteLen (h : ModbusHandler) (d : RegisterValue) :
    (applyInitialData h d).1.discreteInputs.length = h.discreteInputs.length := by
  unfold applyInitialData; split_ifs <;> simp

theorem applyInitialData_warning (h : ModbusHandler) (d : RegisterValue) :
    (applyInitialData h d).2 = warnOf h.config d := by
  unfold applyInitialData warnOf; split_ifs <;> rfl

theorem applyInitialData_holding_getD (h : ModbusHandler) (d : RegisterValue)
    (a : Nat) (hlen : h.config.MaxRegisters % 65536 ≤ h.holdingRegs.length) :
    (applyInitialData h d).1.holdingRegs.getD a 0 =
      if seedHits h.config "holding" a d then d.Value
      else h.holdingRegs.getD a 0 := by
  unfold applyInitialData
  by_cases h1 : d.Address ≥ h.config.MaxRegisters % 65536
  · have hs : seedHits h.config "holding" a d = false := by
      unfold seedHits
      simp [Nat.not_lt.2 h1]
    rw [if_pos h1, hs, if_neg (by simp)]
  · rw [if_neg h1]
    by_cases h2 : d.Type' = "holding"
    · rw [if_pos h2]
      by_cases h3 : d.Address = a
      · subst h3
        have hip : d.Address < h.holdingRegs.length :=
          Nat.lt_of_lt_of_le (Nat.lt_of_not_ge h1) hlen
        have hs : seedHits h.config "holding" d.Address d = true := by
          unfold seedHits
          simp [h2, Nat.lt_of_not_ge h1]
        rw [hs, if_pos rfl]
        exact list_getD_set_self _ _ _ _ hip
      · have hs : seedHits h.config "holding" a d = false := by
          unfold seedHits; simp [h3]
        rw [hs, if_neg (by simp)]
        exact list_getD_set_ne _ _ _ _ _ h3
    · have hs : seedHits h.config "holding" a d = false := by
        unfold seedHits; simp [h2]
      rw [if_neg h2, hs]
      rw [if_neg (show ¬ (false = true) by decide)]
      split_ifs <;> rfl

theorem applyInitialData_input_getD (h : ModbusHandler) (d : RegisterValue)
    (a : Nat) (hlen : h.config.MaxRegisters % 65536 ≤ h.inputRegs.length) :
    (applyInitialData h d).1.inputRegs.getD a 0 =
      if seedHits h.config "input" a d then d.Value
      else h.inputRegs.getD a 0 := by
  unfold applyInitialData
  by_cases h1 : d.Address ≥ h.config.MaxRegisters % 65536
  · have hs : seedHits h.config "input" a d = false := by
      unfold seedHits
      simp [Nat.not_lt.2 h1]
    rw [if_pos h1, hs, if_neg (by simp)]
  · rw [if_neg h1]
    by_cases h2 : d.Type' = "input"
    · have hnh : ¬ d.Type' = "holding" := by simp [h2]
      rw [if_neg hnh, if_pos h2]
      by_cases h3 : d.Address = a
      · subst h3
        have hip : d.Address < h.inputRegs.length :=
          Nat.lt_of_lt_of_le (Nat.lt_of_not_ge h1) hlen
        have hs : seedHits h.config "input" d.Address d = true := by
          unfold seedHits
          simp [h2, Nat.lt_of_not_ge h1]
        rw [hs, if_pos rfl]
        exact list_getD_set_self _ _ _ _ hip
      · have hs : seedHits h.config "input" a d = false := by
          unfold seedHits; simp [h3]
        rw [hs, if_neg (by simp)]
        exact list_getD_set_ne _ _ _ _ _ h3
    · have hs : seedHits h.config "input" a d = false := by
        unfold seedHits; simp [h2]
      rw [hs]
      rw [if_neg (show ¬ (false = true) by decide)]
      split_ifs <;> rfl

theorem applyInitialData_coil_getD (h : ModbusHandler) (d : RegisterValue)
    (a : Nat) (hlen : h.config.MaxRegisters % 65536 ≤ h.coils.length) :
    (applyInitialData h d).1.coils.getD a false =
      if seedHits h.config "coil" a d then d.Value != 0
      else h.coils.getD a false := by
  unfold applyInitialData
  by_cases h1 : d.Address ≥ h.config.MaxRegisters % 65536
  · have hs : seedHits h.config "coil" a d = false := by
      unfold seedHits
      simp [Nat.not_lt.2 h1]
    rw [if_pos h1, hs, if_neg (by simp)]
  · rw [if_neg h1]
    by_cases h2 : d.Type' = "coil"
    · have hnh : ¬ d.Type' = "holding" := by simp [h2]
      have hni : ¬ d.Type' = "input" := by simp [h2]
      rw [if_neg hnh, if_neg hni, if_pos h2]
      by_cases h3 : d.Address = a
      · subst h3
        have hip : d.Address < h.coils.length :=
          Nat.lt_of_lt_of_le (Nat.lt_of_not_ge h1) hlen
        have hs : seedHits h.config "coil" d.Address d = true := by
          unfold seedHits
          simp [h2, Nat.lt_of_not_ge h1]
        rw [hs, if_pos rfl]
        exact list_getD_set_self _ _ _ _ hip
      · have hs : seedHits h.config "coil" a d = false := by
          unfold seedHits; simp [h3]
        rw [hs, if_neg (by simp)]
        exact list_getD_set_ne _ _ _ _ _ h3
    · have hs : seedHits h.config "coil" a d = false := by
        unfold seedHits; simp [h2]
      rw [hs]
      rw [if_neg (show ¬ (false = true) by decide)]
      split_ifs <;> rfl

theorem applyInitialData_discrete_getD (h : ModbusHandler) (d : RegisterValue)
    (a : Nat)
    (hlen : h.config.MaxRegisters % 65536 ≤ h.discreteInputs.length) :
    (applyInitialData h d).1.discreteInputs.getD a false =
      if seedHits h.config "discrete" a d then d.Value != 0
      else h.discreteInputs.getD a false := by
  unfold applyInitialData
  by_cases h1 : d.Address ≥ h.config.MaxRegisters % 65536
  · have hs : seedHits h.config "discrete" a d = false := by
      unfold seedHits
      simp [Nat.not_lt.2 h1]
    rw [if_pos h1, hs, if_neg (by simp)]
  · rw [if_neg h1]
    by_cases h2 : d.Type' = "discrete"
    · have hnh : ¬ d.Type' = "holding" := by simp [h2]
      have hni : ¬ d.Type' = "input" := by simp [h2]
      have hnc : ¬ d.Type' = "coil" := by simp [h2]
      rw [if_neg hnh, if_neg hni, if_neg hnc, if_pos h2]
      by_cases h3 : d.Address = a
      · subst h3
        have hip : d.Address < h.discreteInputs.length :=
          Nat.lt_of_lt_of_le (Nat.lt_of_not_ge h1) hlen
        have hs : seedHits h.config "discrete" d.Address d = true := by
          unfold seedHits
          simp [h2, Nat.lt_of_not_ge h1]
        rw [hs, if_pos rfl]
        exact list_getD_set_self _ _ _ _ hip
      · have hs : seedHits h.config "discrete" a d = false := by
          unfold seedHits; simp [h3]
        rw [hs, if_neg (by simp)]
        exact list_getD_set_ne _ _ _ _ _ h3
    · have hs : seedHits h.config "discrete" a d = false := by
        unfold seedHits; simp [h2]
      rw [hs]
      rw [if_neg (show ¬ (false = true) by decide)]
      split_ifs <;> rfl

/-! Lemmas about the whole seeding fold. -/

theorem seedFold_config (ds : List RegisterValue) :
    ∀ (h : ModbusHandler) (ws : List SeedWarning),
      (ds.foldl seedStep (h, ws)).1.config = h.config := by
  induction ds with
  | nil => intro h ws; rfl
  | cons d ds ih =>
    intro h ws
    simp only [List.foldl_cons, seedStep]
    rw [ih]
    exact applyInitialData_config h d

theorem seedFold_counter (ds : List RegisterValue) :
    ∀ (h : ModbusHandler) (ws : List SeedWarning),
      (ds.foldl seedStep (h, ws)).1.counter = h.counter := by
  induction ds with
  | nil => intro h ws; rfl
  | cons d ds ih =>
    intro h ws
    simp only [List.foldl_cons, seedStep]
    rw [ih]
    exact applyInitialData_counter h d

theorem seedFold_holdingLen (ds : List RegisterValue) :
    ∀ (h : ModbusHandler) (ws : List SeedWarning),
      (ds.foldl seedStep (h, ws)).1.holdingRegs.length =
        h.holdingRegs.length := by
  induction ds with
  | nil => intro h ws; rfl
  | cons d ds ih =>
    intro h ws
    simp only [List.foldl_cons, seedStep]
    rw [ih]
    exact applyInitialData_holdingLen h d

theorem seedFold_inputLen (ds : List RegisterValue) :
    ∀ (h : ModbusHandler) (ws : List SeedWarning),
      (ds.foldl seedStep (h, ws)).1.inputRegs.length = h.inputRegs.length := by
  induction ds with
  | nil => intro h ws; rfl
  | cons d ds ih =>
    intro h ws
    simp only [List.foldl_cons, seedStep]
    rw [ih]
    exact applyInitialData_inputLen h d

theorem seedFold_coilsLen (ds : List RegisterValue) :
    ∀ (h : ModbusHandler) (ws : List SeedWarning),
      (ds.foldl seedStep (h, ws)).1.coils.length = h.coils.length := by
  induction ds with
  | nil => intro h ws; rfl
  | cons d ds ih =>
    intro h ws
    simp only [List.foldl_cons, seedStep]
    rw [ih]
    exact applyInitialData_coilsLen h d

theorem seedFold_discreteLen (ds : List RegisterValue) :
    ∀ (h : ModbusHandler) (ws : List SeedWarning),
      (ds.foldl seedStep (h, ws)).1.discreteInputs.length =
        h.discreteInputs.length := by
  induction ds with
  | nil => intro h ws; rfl
  | cons d ds ih =>
    intro h ws
    simp only [List.foldl_cons, seedStep]
    rw [ih]
    exact applyInitialData_discreteLen h d

theorem seedFold_warnings (ds : List RegisterValue) :
    ∀ (h : ModbusHandler) (ws : List SeedWarning),
      (ds.foldl seedStep (h, ws)).2 =
        ws ++ ds.filterMap (warnOf h.config) := by
  induction ds with
  | nil => intro h ws; simp
  | cons d ds ih =>
    intro h ws
    simp only [List.foldl_cons, seedStep]
    rw [ih, applyInitialData_config, applyInitialData_warning]
    cases hw : warnOf h.config d <;>
      simp [List.filterMap_cons, hw, List.append_assoc]

theorem seedFold_holding_getD (ds : List RegisterValue) :
    ∀ (h : ModbusHandler) (ws : List SeedWarning) (a : Nat),
      h.config.MaxRegisters % 65536 ≤ h.holdingRegs.length →
      (ds.foldl seedStep (h, ws)).1.holdingRegs.getD a 0 =
        ds.foldl
          (fun acc d => if seedHits h.config "holding" a d then d.Value else acc)
          (h.holdingRegs.getD a 0) := by
  induction ds with
  | nil => intro h ws a hlen; rfl
  | cons d ds ih =>
    intro h ws a hlen
    simp only [List.foldl_cons, seedStep]
    have hcfg := applyInitialData_config h d
    have hlen' : (applyInitialData h d).1.config.MaxRegisters % 65536 ≤
        (applyInitialData h d).1.holdingRegs.length := by
      rw [hcfg, applyInitialData_holdingLen]; exact hlen
    rw [ih _ _ _ hlen', applyInitialData_holding_getD h d a hlen, hcfg]

theorem seedFold_input_getD (ds : List RegisterValue) :
    ∀ (h : ModbusHandler) (ws : List SeedWarning) (a : Nat),
      h.config.MaxRegisters % 65536 ≤ h.inputRegs.length →
      (ds.foldl seedStep (h, ws)).1.inputRegs.getD a 0 =
        ds.foldl
          (fun acc d => if seedHits h.config "input" a d then d.Value else acc)
          (h.inputRegs.getD a 0) := by
  induction ds with
  | nil => intro h ws a hlen; rfl
  | cons d ds ih =>
    intro h ws a hlen
    simp only [List.foldl_cons, seedStep]
    have hcfg := applyInitialData_config h d
    have hlen' : (applyInitialData h d).1.config.MaxRegisters % 65536 ≤
        (applyInitialData h d).1.inputRegs.length := by
      rw [hcfg, applyInitialData_inputLen]; exact hlen
    rw [ih _ _ _ hlen', applyInitialData_input_getD h d a hlen, hcfg]

theorem seedFold_coil_getD (ds : List RegisterValue) :
    ∀ (h : ModbusHandler) (ws : List SeedWarning) (a : Nat),
      h.config.MaxRegisters % 65536 ≤ h.coils.length →
      (ds.foldl seedStep (h, ws)).1.coils.getD a false =
        ds.foldl
          (fun acc d => if seedHits h.config "coil" a d then d.Value != 0 else acc)
          (h.coils.getD a false) := by
  induction ds with
  | nil => intro h ws a hlen; rfl
  | cons d ds ih =>
    intro h ws a hlen
    simp only [List.foldl_cons, seedStep]
    have hcfg := applyInitialData_config h d
    have hlen' : (applyInitialData h d).1.config.MaxRegisters % 65536 ≤
        (applyInitialData h d).1.coils.length := by
      rw [hcfg, applyInitialData_coilsLen]; exact hlen
    rw [ih _ _ _ hlen', applyInitialData_coil_getD h d a hlen, hcfg]

theorem seedFold_discrete_getD (ds : List RegisterValue) :
    ∀ (h : ModbusHandler) (ws : List SeedWarning) (a : Nat),
      h.config.MaxRegisters % 65536 ≤ h.discreteInputs.length →
      (ds.foldl seedStep (h, ws)).1.discreteInputs.getD a false =
        ds.foldl
          (fun acc d =>
            if seedHits h.config "discrete" a d then d.Value != 0 else acc)
          (h.discreteInputs.getD a false) := by
  induction ds with
  | nil => intro h ws a hlen; rfl
  | cons d ds ih =>
    intro h ws a hlen
    simp only [List.foldl_cons, seedStep]
    have hcfg := applyInitialData_config h d
    have hlen' : (applyInitialData h d).1.config.MaxRegisters % 65536 ≤
        (applyInitialData h d).1.discreteInputs.length := by
      rw [hcfg, applyInitialData_discreteLen]; exact hlen
    rw [ih _ _ _ hlen', applyInitialData_discrete_getD h d a hlen, hcfg]

/-! Lemmas about NewModbusHandler as a whole. -/

theorem construct_cond (cfg : ModbusConfig)
    (hca : cfg.CounterAddress < cfg.MaxRegisters) :
    cfg.CounterAddress <
      (cfg.InitialData.foldl seedStep
        (⟨cfg, List.replicate cfg.MaxRegisters 0,
          List.replicate cfg.MaxRegisters 0,
          List.replicate cfg.MaxRegisters false,
          List.replicate cfg.MaxRegisters false, 0, ⟨0, 0, 0⟩⟩,
         [])).1.holdingRegs.length := by
  rw [seedFold_holdingLen]
  simpa using hca

theorem construct_warnings (cfg : ModbusConfig)
    (hca : cfg.CounterAddress < cfg.MaxRegisters) :
    seedResultWarnings cfg =
      some (cfg.InitialData.filterMap (warnOf cfg)) := by
  unfold seedResultWarnings NewModbusHandler
  simp only
  rw [if_pos (construct_cond cfg hca)]
  rw [Option.map_some']
  rw [seedFold_warnings]
  simp

theorem construct_counter (cfg : ModbusConfig)
    (hca : cfg.CounterAddress < cfg.MaxRegisters) :
    seedResultCounter cfg = some 0 := by
  unfold seedResultCounter NewModbusHandler
  simp only
  rw [if_pos (construct_cond cfg hca)]
  rw [Option.map_some']
  rw [seedFold_counter]

theorem construct_holding_ca (cfg : ModbusConfig)
    (hca : cfg.CounterAddress < cfg.MaxRegisters) :
    seedResultHoldingAt cfg cfg.CounterAddress = some 0 := by
  unfold seedResultHoldingAt NewModbusHandler
  simp only
  rw [if_pos (construct_cond cfg hca)]
  rw [Option.map_some']
  rw [list_getD_set_self _ _ _ _ (construct_cond cfg hca)]

theorem construct_holding_at (cfg : ModbusConfig)
    (hca : cfg.CounterAddress < cfg.MaxRegisters) (a : Nat)
    (ha : a ≠ cfg.CounterAddress) :
    seedResultHoldingAt cfg a = some (seedValueNat cfg "holding" a) := by
  unfold seedResultHoldingAt NewModbusHandler
  simp only
  rw [if_pos (construct_cond cfg hca)]
  rw [Option.map_some']
  rw [list_getD_set_ne _ _ _ _ _ (Ne.symm ha)]
  rw [seedFold_holding_getD _ _ _ _
    (by simpa using Nat.mod_le cfg.MaxRegisters 65536)]
  rw [list_getD_replicate]
  unfold seedValueNat
  simp

theorem construct_input_at (cfg : ModbusConfig)
    (hca : cfg.CounterAddress < cfg.MaxRegisters) (a : Nat) :
    seedResultInputAt cfg a = some (seedValueNat cfg "input" a) := by
  unfold seedResultInputAt NewModbusHandler
  simp only
  rw [if_pos (construct_cond cfg hca)]
  rw [Option.map_some']
  rw [seedFold_input_getD _ _ _ _
    (by simpa using Nat.mod_le cfg.MaxRegisters 65536)]
  rw [list_getD_replicate]
  unfold seedValueNat
  simp

theorem construct_coil_at (cfg : ModbusConfig)
    (hca : cfg.CounterAddress < cfg.MaxRegisters) (a : Nat) :
    seedResultCoilAt cfg a = some (seedValueBool cfg "coil" a) := by
  unfold seedResultCoilAt NewModbusHandler
  simp only
  rw [if_pos (construct_cond cfg hca)]
  rw [Option.map_some']
  rw [seedFold_coil_getD _ _ _ _
    (by simpa using Nat.mod_le cfg.MaxRegisters 65536)]
  rw [list_getD_replicate]
  unfold seedValueBool
  simp

theorem construct_discrete_at (cfg : ModbusConfig)
    (hca : cfg.CounterAddress < cfg.MaxRegisters) (a : Nat) :
    seedResultDiscreteAt cfg a = some (seedValueBool cfg "discrete" a) := by
  unfold seedResultDiscreteAt NewModbusHandler
  simp only
  rw [if_pos (construct_cond cfg hca)]
  rw [Option.map_some']
  rw [seedFold_discrete_getD _ _ _ _
    (by simpa using Nat.mod_le cfg.MaxRegisters 65536)]
  rw [list_getD_replicate]
  unfold seedValueBool
  simp

theorem construct_none (cfg : ModbusConfig)
    (hca : cfg.MaxRegisters ≤ cfg.CounterAddress) :
    NewModbusHandler cfg = none := by
  unfold NewModbusHandler
  simp only
  rw [if_neg]
  rw [seedFold_holdingLen]
  simpa using Nat.not_lt.2 hca

/-! Characterization of the four handlers by validation outcome. -/

theorem handleHolding_mismatch (h : ModbusHandler)
    (req : HoldingRegistersRequest) (hu : req.UnitId ≠ h.config.UnitID) :
    HandleHoldingRegisters h req =
      some ({ h with stats :=
                { RequestsHandled := h.stats.RequestsHandled + 1,
                  Errors := h.stats.Errors + 1,
                  StartTime := h.stats.StartTime } },
            Except.error ModbusError.ErrIllegalFunction) := by
  simp only [HandleHoldingRegisters]
  rw [if_pos hu]

theorem handleInput_mismatch (h : ModbusHandler)
    (req : InputRegistersRequest) (hu : req.UnitId ≠ h.config.UnitID) :
    HandleInputRegisters h req =
      some ({ h with stats :=
                { RequestsHandled := h.stats.RequestsHandled + 1,
                  Errors := h.stats.Errors + 1,
                  StartTime := h.stats.StartTime } },
            Except.error ModbusError.ErrIllegalFunction) := by
  simp only [HandleInputRegisters]
  rw [if_pos hu]

theorem handleCoils_mismatch (h : ModbusHandler)
    (req : CoilsRequest) (hu : req.UnitId ≠ h.config.UnitID) :
    HandleCoils h req =
      some ({ h with stats :=
                { RequestsHandled := h.stats.RequestsHandled + 1,
                  Errors := h.stats.Errors + 1,
                  StartTime := h.stats.StartTime } },
            Except.error ModbusError.ErrIllegalFunction) := by
  simp only [HandleCoils]
  rw [if_pos hu]

theorem handleDiscrete_mismatch (h : ModbusHandler)
    (req : DiscreteInputsRequest) (hu : req.UnitId ≠ h.config.UnitID) :
    HandleDiscreteInputs h req =
      some ({ h with stats :=
                { RequestsHandled := h.stats.RequestsHandled + 1,
                  Errors := h.stats.Errors + 1,
                  StartTime := h.stats.StartTime } },
            Except.error ModbusError.ErrIllegalFunction) := by
  simp only [HandleDiscreteInputs]
  rw [if_pos hu]

theorem handleHolding_oob (h : ModbusHandler)
    (req : HoldingRegistersRequest) (hu : req.UnitId = h.config.UnitID)
    (hb : h.holdingRegs.length < req.Addr + req.Quantity) :
    HandleHoldingRegisters h req =
      some ({ h with stats :=
                { RequestsHandled := h.stats.RequestsHandled + 1,
                  Errors := h.stats.Errors + 1,
                  StartTime := h.stats.StartTime } },
            Except.error ModbusError.ErrIllegalDataAddress) := by
  simp only [HandleHoldingRegisters]
  have hne : ¬ (req.UnitId ≠ h.config.UnitID) := by simp [hu]
  rw [if_neg hne, if_pos hb]

theorem handleInput_oob (h : ModbusHandler)
    (req : InputRegistersRequest) (hu : req.UnitId = h.config.UnitID)
    (hb : h.inputRegs.length < req.Addr + req.Quantity) :
    HandleInputRegisters h req =
      some ({ h with stats :=
                { RequestsHandled := h.stats.RequestsHandled + 1,
                  Errors := h.stats.Errors + 1,
                  StartTime := h.stats.StartTime } },
            Except.error ModbusError.ErrIllegalDataAddress) := by
  simp only [HandleInputRegisters]
  have hne : ¬ (req.UnitId ≠ h.config.UnitID) := by simp [hu]
  rw [if_neg hne, if_pos hb]

theorem handleCoils_oob (h : ModbusHandler)
    (req : CoilsRequest) (hu : req.UnitId = h.config.UnitID)
    (hb : h.coils.length < req.Addr + req.Quantity) :
    HandleCoils h req =
      some ({ h with stats :=
                { RequestsHandled := h.stats.RequestsHandled + 1,
                  Errors := h.stats.Errors + 1,
                  StartTime := h.stats.StartTime } },
            Except.error ModbusError.ErrIllegalDataAddress) := by
  simp only [HandleCoils]
  have hne : ¬ (req.UnitId ≠ h.config.UnitID) := by simp [hu]
  rw [if_neg hne, if_pos hb]

theorem handleDiscrete_oob (h : ModbusHandler)
    (req : DiscreteInputsRequest) (hu : req.UnitId = h.config.UnitID)
    (hb : h.discreteInputs.length < req.Addr + req.Quantity) :
    HandleDiscreteInputs h req =
      some ({ h with stats :=
                { RequestsHandled := h.stats.RequestsHandled + 1,
                  Errors := h.stats.Errors + 1,
                  StartTime := h.stats.StartTime } },
            Except.error ModbusError.ErrIllegalDataAddress) := by
  simp only [HandleDiscreteInputs]
  have hne : ¬ (req.UnitId ≠ h.config.UnitID) := by simp [hu]
  rw [if_neg hne, if_pos hb]

theorem handleHolding_inrange (h : ModbusHandler)
    (req : HoldingRegistersRequest) (hu : req.UnitId = h.config.UnitID)
    (hb : req.Addr + req.Quantity ≤ h.holdingRegs.length) :
    HandleHoldingRegisters h req =
      Option.map
        (fun pr =>
          ({ h with
              holdingRegs := pr.1,
              stats := { RequestsHandled := h.stats.RequestsHandled + 1,
                         Errors := h.stats.Errors,
                         StartTime := h.stats.StartTime } }, Except.ok pr.2))
        (holdingLoop h.config.CounterAddress req.IsWrite req.Args req.Addr 0
          req.Quantity h.holdingRegs) := by
  simp only [HandleHoldingRegisters]
  have hne : ¬ (req.UnitId ≠ h.config.UnitID) := by simp [hu]
  rw [if_neg hne, if_neg (Nat.not_lt.2 hb)]
  cases holdingLoop h.config.CounterAddress req.IsWrite req.Args req.Addr 0
      req.Quantity h.holdingRegs with
  | none => rfl
  | some pr => cases pr; rfl

theorem handleInput_inrange (h : ModbusHandler)
    (req : InputRegistersRequest) (hu : req.UnitId = h.config.UnitID)
    (hb : req.Addr + req.Quantity ≤ h.inputRegs.length) :
    HandleInputRegisters h req =
      Option.map
        (fun res =>
          ({ h with
              stats := { RequestsHandled := h.stats.RequestsHandled + 1,
                         Errors := h.stats.Errors,
                         StartTime := h.stats.StartTime } }, Except.ok res))
        (readLoop h.inputRegs req.Addr req.Quantity) := by
  simp only [HandleInputRegisters]
  have hne : ¬ (req.UnitId ≠ h.config.UnitID) := by simp [hu]
  rw [if_neg hne, if_neg (Nat.not_lt.2 hb)]
  cases readLoop h.inputRegs req.Addr req.Quantity with
  | none => rfl
  | some res => rfl

theorem handleCoils_inrange (h : ModbusHandler)
    (req : CoilsRequest) (hu : req.UnitId = h.config.UnitID)
    (hb : req.Addr + req.Quantity ≤ h.coils.length) :
    HandleCoils h req =
      Option.map
        (fun pr =>
          ({ h with
              coils := pr.1,
              stats := { RequestsHandled := h.stats.RequestsHandled + 1,
                         Errors := h.stats.Errors,
                         StartTime := h.stats.StartTime } }, Except.ok pr.2))
        (coilsLoop req.IsWrite req.Args req.Addr 0 req.Quantity h.coils) := by
  simp only [HandleCoils]
  have hne : ¬ (req.UnitId ≠ h.config.UnitID) := by simp [hu]
  rw [if_neg hne, if_neg (Nat.not_lt.2 hb)]
  cases coilsLoop req.IsWrite req.Args req.Addr 0 req.Quantity h.coils with
  | none => rfl
  | some pr => cases pr; rfl

theorem handleDiscrete_inrange (h : ModbusHandler)
    (req : DiscreteInputsRequest) (hu : req.UnitId = h.config.UnitID)
    (hb : req.Addr + req.Quantity ≤ h.discreteInputs.length) :
    HandleDiscreteInputs h req =
      Option.map
        (fun res =>
          ({ h with
              stats := { RequestsHandled := h.stats.RequestsHandled + 1,
                         Errors := h.stats.Errors,
                         StartTime := h.stats.StartTime } }, Except.ok res))
        (readLoop h.discreteInputs req.Addr req.Quantity) := by
  simp only [HandleDiscreteInputs]
  have hne : ¬ (req.UnitId ≠ h.config.UnitID) := by simp [hu]
  rw [if_neg hne, if_neg (Nat.not_lt.2 hb)]
  cases readLoop h.discreteInputs req.Addr req.Quantity with
  | none => rfl
  | some res => rfl

/-! Lemmas about the table-sweep loops. -/

theorem holdingLoop_write_one (ca a v : Nat) (regs : List Nat)
    (hca : a % 65536 ≠ ca) (ha : a < regs.length) :
    holdingLoop ca true [v] a 0 1 regs = some (regs.set a v, [v]) := by
  have hx : (regs.set a v)[a]? = some v := list_getElem?_set_self _ _ _ ha
  simp [holdingLoop, hca, hx]

theorem holdingLoop_skip_one (ca v : Nat) (regs : List Nat)
    (ha : ca < regs.length) (hca16 : ca < 65536) :
    holdingLoop ca true [v] ca 0 1 regs = some (regs, [regs.getD ca 0]) := by
  have hmod : ca % 65536 = ca := Nat.mod_eq_of_lt hca16
  obtain ⟨x, hx⟩ := list_getElem?_isSome regs ca ha
  have hgd : regs.getD ca 0 = x := list_getD_of_getElem? _ _ _ _ hx
  simp [holdingLoop, hmod, hx, hgd]

theorem holdingLoop_read_one (ca : Nat) (args : List Nat) (a : Nat)
    (regs : List Nat) (ha : a < regs.length) :
    holdingLoop ca false args a 0 1 regs = some (regs, [regs.getD a 0]) := by
  obtain ⟨x, hx⟩ := list_getElem?_isSome regs a ha
  have hgd : regs.getD a 0 = x := list_getD_of_getElem? _ _ _ _ hx
  simp [holdingLoop, hx, hgd]

theorem coilsLoop_write_one (a : Nat) (v : Bool) (cs : List Bool)
    (ha : a < cs.length) :
    coilsLoop true [v] a 0 1 cs = some (cs.set a v, [v]) := by
  have hx : (cs.set a v)[a]? = some v := list_getElem?_set_self _ _ _ ha
  simp [coilsLoop, hx]

theorem coilsLoop_read_one (args : List Bool) (a : Nat) (cs : List Bool)
    (ha : a < cs.length) :
    coilsLoop false args a 0 1 cs = some (cs, [cs.getD a false]) := by
  obtain ⟨x, hx⟩ := list_getElem?_isSome cs a ha
  have hgd : cs.getD a false = x := list_getD_of_getElem? _ _ _ _ hx
  simp [coilsLoop, hx, hgd]

theorem holdingLoop_isSome (ca : Nat) (w : Bool) (args : List Nat)
    (sa : Nat) :
    ∀ (q i : Nat) (regs : List Nat), i + q ≤ args.length →
      sa + i + q ≤ regs.length →
      ∃ out, holdingLoop ca w args sa i q regs = some out := by
  intro q
  induction q with
  | zero => intro i regs _ _; exact ⟨(regs, []), by simp [holdingLoop]⟩
  | succ q ih =>
    intro i regs hargs hlen
    have haddr : sa + i < regs.length := by omega
    cases w with
    | false =>
      obtain ⟨x, hx⟩ := list_getElem?_isSome regs (sa + i) haddr
      obtain ⟨out, hout⟩ := ih (i + 1) regs (by omega) (by omega)
      obtain ⟨regsF, res⟩ := out
      exact ⟨(regsF, x :: res), by simp [holdingLoop, hx, hout]⟩
    | true =>
      by_cases hcai : (sa + i) % 65536 = ca
      · obtain ⟨x, hx⟩ := list_getElem?_isSome regs (sa + i) haddr
        obtain ⟨out, hout⟩ := ih (i + 1) regs (by omega) (by omega)
        obtain ⟨regsF, res⟩ := out
        exact ⟨(regsF, x :: res), by simp [holdingLoop, hcai, hx, hout]⟩
      · obtain ⟨v, hv⟩ := list_getElem?_isSome args i (by omega)
        obtain ⟨x, hx⟩ := list_getElem?_isSome (regs.set (sa + i) v) (sa + i)
          (by simpa using haddr)
        obtain ⟨out, hout⟩ := ih (i + 1) (regs.set (sa + i) v) (by omega)
          (by simp; omega)
        obtain ⟨regsF, res⟩ := out
        exact ⟨(regsF, x :: res),
          by simp [holdingLoop, hcai, hv, hx, hout]⟩

theorem coilsLoop_isSome (args : List Bool) (sa : Nat) (w : Bool) :
    ∀ (q i : Nat) (cs : List Bool), i + q ≤ args.length →
      sa + i + q ≤ cs.length →
      ∃ out, coilsLoop w args sa i q cs = some out := by
  intro q
  induction q with
  | zero => intro i cs _ _; exact ⟨(cs, []), by simp [coilsLoop]⟩
  | succ q ih =>
    intro i cs hargs hlen
    have haddr : sa + i < cs.length := by omega
    cases w with
    | false =>
      obtain ⟨x, hx⟩ := list_getElem?_isSome cs (sa + i) haddr
      obtain ⟨out, hout⟩ := ih (i + 1) cs (by omega) (by omega)
      obtain ⟨csF, res⟩ := out
      exact ⟨(csF, x :: res), by simp [coilsLoop, hx, hout]⟩
    | true =>
      obtain ⟨v, hv⟩ := list_getElem?_isSome args i (by omega)
      obtain ⟨x, hx⟩ := list_getElem?_isSome (cs.set (sa + i) v) (sa + i)
        (by simpa using haddr)
      obtain ⟨out, hout⟩ := ih (i + 1) (cs.set (sa + i) v) (by omega)
        (by simp; omega)
      obtain ⟨csF, res⟩ := out
      exact ⟨(csF, x :: res), by simp [coilsLoop, hv, hx, hout]⟩

theorem holdingLoop_none (ca : Nat) (args : List Nat) (sa : Nat) :
    ∀ (q i : Nat) (regs : List Nat) (j : Nat),
      i ≤ j → j < i + q → args.length ≤ j → (sa + j) % 65536 ≠ ca →
      holdingLoop ca true args sa i q regs = none := by
  intro q
  induction q with
  | zero =>
    intro i regs j h1 h2 _ _
    exact absurd h2 (by omega)
  | succ q ih =>
    intro i regs j h1 h2 hargs hca
    by_cases hji : j = i
    · subst hji
      have hnone : args[j]? = none := list_getElem?_none args j hargs
      simp [holdingLoop, hnone, hca]
    · have hj1 : i + 1 ≤ j := by omega
      by_cases hcai : (sa + i) % 65536 = ca
      · have hrec := ih (i + 1) regs j hj1 (by omega) hargs hca
        cases hx : regs[sa + i]? with
        | none => simp [holdingLoop, hcai, hx]
        | some x => simp [holdingLoop, hcai, hx, hrec]
      · cases hv : args[i]? with
        | none => simp [holdingLoop, hv, hcai]
        | some v =>
          have hrec := ih (i + 1) (regs.set (sa + i) v) j hj1 (by omega)
            hargs hca
          cases hx : (regs.set (sa + i) v)[sa + i]? with
          | none => simp [holdingLoop, hv, hcai, hx]
          | some x => simp [holdingLoop, hv, hcai, hx, hrec]

theorem coilsLoop_none (args : List Bool) (sa : Nat) :
    ∀ (q i : Nat) (cs : List Bool), i ≤ args.length →
      args.length < i + q →
      coilsLoop true args sa i q cs = none := by
  intro q
  induction q with
  | zero =>
    intro i cs h1 h2
    exact absurd h2 (by omega)
  | succ q ih =>
    intro i cs h1 h2
    by_cases hi : i < args.length
    · obtain ⟨v, hv⟩ := list_getElem?_isSome args i hi
      have hrec := ih (i + 1) (cs.set (sa + i) v) (by omega) (by omega)
      cases hx : (cs.set (sa + i) v)[sa + i]? with
      | none => simp [coilsLoop, hv, hx]
      | some x => simp [coilsLoop, hv, hx, hrec]
    · have hv := list_getElem?_none args i (by omega)
      simp [coilsLoop, hv]

/-! Lemmas about the counter. -/

theorem updateCounterIter_succ (h : ModbusHandler) (n : Nat) :
    updateCounterIter h (n + 1) = (UpdateCounter (updateCounterIter h n)).1 :=
  rfl

theorem updateCounter_step (h : ModbusHandler) (hc : h.counter < 65535) :
    (UpdateCounter h).1.counter = h.counter + 1 ∧ (UpdateCounter h).2 = false := by
  unfold UpdateCounter
  have hm : (h.counter + 1) % 65536 = h.counter + 1 := Nat.mod_eq_of_lt (by omega)
  rw [if_neg (by omega)]
  exact ⟨hm, rfl⟩

theorem updateCounter_iter_value (h : ModbusHandler) (h0 : h.counter = 0) :
    ∀ n : Nat, n ≤ 65535 → (updateCounterIter h n).counter = n := by
  intro n
  induction n with
  | zero => intro _; exact h0
  | succ n ih =>
    intro hn
    have hv : (updateCounterIter h n).counter = n := ih (by omega)
    have := updateCounter_step (updateCounterIter h n) (by omega)
    simpa [updateCounterIter, hv] using this.1

theorem updateCounter_wrap (h : ModbusHandler) (hc : h.counter = 65535) :
    (UpdateCounter h).1.counter = 1 ∧ (UpdateCounter h).2 = true := by
  unfold UpdateCounter
  rw [hc]
  norm_num

theorem updateCounter_mirror (h : ModbusHandler)
    (hca : h.config.CounterAddress < h.holdingRegs.length) :
    (UpdateCounter h).1.holdingRegs.getD h.config.CounterAddress 0 =
      (UpdateCounter h).1.counter := by
  unfold UpdateCounter
  by_cases hz : (h.counter + 1) % 65536 = 0
  · rw [if_pos hz]
    exact list_getD_set_self _ _ _ _ (by simpa using hca)
  · rw [if_neg hz]
    exact list_getD_set_self _ _ _ _ hca

theorem updateCounter_ne_zero (h : ModbusHandler) :
    (UpdateCounter h).1.counter ≠ 0 := by
  unfold UpdateCounter
  by_cases hz : (h.counter + 1) % 65536 = 0
  · rw [if_pos hz]; simp
  · rw [if_neg hz]; simpa using hz

/-! Lemma about the retry loop of server.Start with every attempt
failing. -/

theorem start_allfail_tail (maxRetries : Nat) :
    ∀ (k r a w : Nat), 1 ≤ r → r + k = maxRetries →
      Start maxRetries (fun _ => true) (k + 1) r a w =
        some (StartOutcome.maxRetriesExceeded maxRetries, a + k, w + k) := by
  intro k
  induction k with
  | zero =>
    intro r a w h1 h2
    unfold Start
    rw [if_pos (by omega)]
    simp
  | succ k ih =>
    intro r a w h1 h2
    unfold Start
    rw [if_neg (by omega)]
    have e1 : a + 1 + k = a + (k + 1) := by omega
    have e2 : w + 1 + k = w + (k + 1) := by omega
    simpa [if_pos (show 0 < r by omega), e1, e2] using
      ih (r + 1) (a + 1) (w + 1) (by omega) (by omega)

/-! Statistics lemmas, one per handler. -/

theorem holding_statsAdvance (h : ModbusHandler)
    (req : HoldingRegistersRequest) :
    ∀ p, HandleHoldingRegisters h req = some p →
      StatsAdvance h.stats p.1.stats (exceptIsError p.2) := by
  intro p hp
  by_cases hu : req.UnitId = h.config.UnitID
  · by_cases hb : req.Addr + req.Quantity ≤ h.holdingRegs.length
    · rw [handleHolding_inrange h req hu hb, Option.map_eq_some'] at hp
      obtain ⟨pr, _, hfp⟩ := hp
      rw [← hfp]
      simp [StatsAdvance, exceptIsError]
      omega
    · rw [handleHolding_oob h req hu (by omega)] at hp
      simp only [Option.some.injEq] at hp
      subst hp
      simp [StatsAdvance, exceptIsError]
  · rw [handleHolding_mismatch h req hu] at hp
    simp only [Option.some.injEq] at hp
    subst hp
    simp [StatsAdvance, exceptIsError]

theorem input_statsAdvance (h : ModbusHandler)
    (req : InputRegistersRequest) :
    ∀ p, HandleInputRegisters h req = some p →
      StatsAdvance h.stats p.1.stats (exceptIsError p.2) := by
  intro p hp
  by_cases hu : req.UnitId = h.config.UnitID
  · by_cases hb : req.Addr + req.Quantity ≤ h.inputRegs.length
    · rw [handleInput_inrange h req hu hb, Option.map_eq_some'] at hp
      obtain ⟨pr, _, hfp⟩ := hp
      rw [← hfp]
      simp [StatsAdvance, exceptIsError]
      omega
    · rw [handleInput_oob h req hu (by omega)] at hp
      simp only [Option.some.injEq] at hp
      subst hp
      simp [StatsAdvance, exceptIsError]
  · rw [handleInput_mismatch h req hu] at hp
    simp only [Option.some.injEq] at hp
    subst hp
    simp [StatsAdvance, exceptIsError]

theorem coils_statsAdvance (h : ModbusHandler) (req : CoilsRequest) :
    ∀ p, HandleCoils h req = some p →
      StatsAdvance h.stats p.1.stats (exceptIsError p.2) := by
  intro p hp
  by_cases hu : req.UnitId = h.config.UnitID
  · by_cases hb : req.Addr + req.Quantity ≤ h.coils.length
    · rw [handleCoils_inrange h req hu hb, Option.map_eq_some'] at hp
      obtain ⟨pr, _, hfp⟩ := hp
      rw [← hfp]
      simp [StatsAdvance, exceptIsError]
      omega
    · rw [handleCoils_oob h req hu (by omega)] at hp
      simp only [Option.some.injEq] at hp
      subst hp
      simp [StatsAdvance, exceptIsError]
  · rw [handleCoils_mismatch h req hu] at hp
    simp only [Option.some.injEq] at hp
    subst hp
    simp [StatsAdvance, exceptIsError]

theorem discrete_statsAdvance (h : ModbusHandler)
    (req : DiscreteInputsRequest) :
    ∀ p, HandleDiscreteInputs h req = some p →
      StatsAdvance h.stats p.1.stats (exceptIsError p.2) := by
  intro p hp
  by_cases hu : req.UnitId = h.config.UnitID
  · by_cases hb : req.Addr + req.Quantity ≤ h.discreteInputs.length
    · rw [handleDiscrete_inrange h req hu hb, Option.map_eq_some'] at hp
      obtain ⟨pr, _, hfp⟩ := hp
      rw [← hfp]
      simp [StatsAdvance, exceptIsError]
      omega
    · rw [handleDiscrete_oob h req hu (by omega)] at hp
      simp only [Option.some.injEq] at hp
      subst hp
      simp [StatsAdvance, exceptIsError]
  · rw [handleDiscrete_mismatch h req hu] at hp
    simp only [Option.some.injEq] at hp
    subst hp
    simp [StatsAdvance, exceptIsError]

theorem updateCounter_stats (h : ModbusHandler) :
    (UpdateCounter h).1.stats = h.stats := by
  unfold UpdateCounter
  by_cases hz : (h.counter + 1) % 65536 = 0
  · rw [if_pos hz]
  · rw [if_neg hz]

/-! Claim theorems. -/

/-- C4: starting from a freshly constructed handler (counter 0), the value
after the n-th counter update is n for every n up to the 16-bit maximum
65535, hence strictly increasing; the update past 65535 wraps the counter
to 1 (the counter is never 0 after an update) and logs the overflow
warning; and after every update the new counter value sits in
holding[counterAddress]. -/
theorem C4_counter_monotone_wrap (h : ModbusHandler) (h0 : h.counter = 0) :
    (∀ n : Nat, n ≤ 65535 → (updateCounterIter h n).counter = n) ∧
    (∀ n : Nat, n + 1 ≤ 65535 →
      (updateCounterIter h n).counter <
        (updateCounterIter h (n + 1)).counter) ∧
    (updateCounterIter h 65536).counter = 1 ∧
    (UpdateCounter (updateCounterIter h 65535)).2 = true ∧
    (∀ g : ModbusHandler, (UpdateCounter g).1.counter ≠ 0) ∧
    (∀ g : ModbusHandler, g.config.CounterAddress < g.holdingRegs.length →
      (UpdateCounter g).1.holdingRegs.getD g.config.CounterAddress 0 =
        (UpdateCounter g).1.counter) := by
  refine ⟨updateCounter_iter_value h h0, ?_, ?_, ?_,
    updateCounter_ne_zero, updateCounter_mirror⟩
  · intro n hn
    rw [updateCounter_iter_value h h0 n (by omega),
        updateCounter_iter_value h h0 (n + 1) (by omega)]
    omega
  · show (updateCounterIter h (65535 + 1)).counter = 1
    rw [updateCounterIter_succ]
    have h65535 := updateCounter_iter_value h h0 65535 (by omega)
    exact (updateCounter_wrap _ h65535).1
  · have h65535 := updateCounter_iter_value h h0 65535 (by omega)
    exact (updateCounter_wrap _ h65535).2

/-- C4 witness: five updates on the test handler leave the counter at 5. -/
theorem C4_counter_monotone_wrap_witness :
    (updateCounterIter hT 5).counter = 5 :=
  (C4_counter_monotone_wrap hT rfl).1 5 (by decide)

/-- C6: when the transport start always fails and the configured maximum
retry count is m ≥ 1 (the context is never cancelled), server.Start makes
exactly m startServer attempts separated by exactly m - 1 retry-delay
waits (no wait before the first attempt) and then returns the fatal
max-retries-exceeded error. -/
theorem C6_start_retries (m : Nat) (hm : 1 ≤ m) :
    Start m (fun _ => true) (m + 1) 0 0 0 =
      some (StartOutcome.maxRetriesExceeded m, m, m - 1) := by
  unfold Start
  rw [if_neg (by omega)]
  have htail := start_allfail_tail m (m - 1) 1 1 0 (by omega) (by omega)
  have hm1 : m - 1 + 1 = m := by omega
  have e1 : 1 + (m - 1) = m := by omega
  have e2 : 0 + (m - 1) = m - 1 := by omega
  rw [hm1, e1, e2] at htail
  simpa using htail

/-- C6 witness: with maximum 3 the supervisor makes 3 attempts and 2
waits before failing fatally. -/
theorem C6_start_retries_witness :
    Start 3 (fun _ => true) 4 0 0 0 =
      some (StartOutcome.maxRetriesExceeded 3, 3, 2) :=
  C6_start_retries 3 (by decide)

/-- C7 counterexample: with MaxRegisters 3 and CounterAddress 5,
NewModbusHandler reaches the unguarded write holding[5] on a 3-slot table
and panics with index out of range (the modelled none); no
configuration-error value is surfaced, contradicting the claim that the
violation is reported as a configuration error and never a panic. -/
theorem C7_counterexample : NewModbusHandler cfgBad = none := by decide

/-- C7 (amended): whenever CounterAddress is not below MaxRegisters,
construction produces no handler at all: the final counter-slot reset
panics with index out of range (modelled none), the process does not
start, and no configuration-error value exists in the construction
interface. -/
theorem C7_construction_panics (cfg : ModbusConfig)
    (hca : cfg.MaxRegisters ≤ cfg.CounterAddress) :
    NewModbusHandler cfg = none :=
  construct_none cfg hca

/-- C7 witness: a second violating configuration also yields the modelled
panic. -/
theorem C7_construction_panics_witness : NewModbusHandler cfgBad2 = none :=
  C7_construction_panics cfgBad2 (by decide)

/-- C1: with matching identity and an in-range uint16 address (every
address a modbus request can carry is below 65536), a single-register
write immediately followed by a read of the same address returns the
written value, for holding registers (away from the protected counter
address) and for coils (everywhere); a write to the protected counter
address leaves the holding table unchanged and the read-back returns the
stored value, which after any increment is exactly the counter value the
increment wrote. -/
theorem C1_write_read_roundtrip (h : ModbusHandler) (a v : Nat) (b : Bool) :
    (a < 65536 → a < h.holdingRegs.length →
      a ≠ h.config.CounterAddress →
      writeThenReadHolding h a v = some (Except.ok [v])) ∧
    (a < 65536 → a < h.holdingRegs.length →
      a = h.config.CounterAddress →
      holdingTableAfterWrite h a v = some h.holdingRegs ∧
      writeThenReadHolding h a v =
        some (Except.ok [h.holdingRegs.getD a 0])) ∧
    (h.config.CounterAddress < h.holdingRegs.length →
      (UpdateCounter h).1.holdingRegs.getD h.config.CounterAddress 0 =
        (UpdateCounter h).1.counter) ∧
    (a < h.coils.length →
      writeThenReadCoils h a b = some (Except.ok [b])) := by
  refine ⟨?_, ?_, updateCounter_mirror h, ?_⟩
  · intro ha16 ha hne
    have hmod : a % 65536 ≠ h.config.CounterAddress := by
      rw [Nat.mod_eq_of_lt ha16]
      exact hne
    unfold writeThenReadHolding
    rw [handleHolding_inrange h
          { UnitId := h.config.UnitID, Addr := a, Quantity := 1,
            IsWrite := true, Args := [v] } rfl ha,
        holdingLoop_write_one _ _ _ _ hmod ha]
    simp only [Option.map_some', Option.some_bind]
    rw [handleHolding_inrange _ _ rfl (by simpa using ha),
        holdingLoop_read_one _ _ _ _ (by simpa using ha)]
    rw [list_getD_set_self _ _ _ _ ha]
    simp
  · intro ha16 ha hca
    have ha' : h.config.CounterAddress < h.holdingRegs.length := hca ▸ ha
    have ha16' : h.config.CounterAddress < 65536 := hca ▸ ha16
    constructor
    · unfold holdingTableAfterWrite
      rw [handleHolding_inrange h
            { UnitId := h.config.UnitID, Addr := a, Quantity := 1,
              IsWrite := true, Args := [v] } rfl ha]
      rw [hca, holdingLoop_skip_one _ _ _ ha' ha16']
      simp
    · unfold writeThenReadHolding
      rw [handleHolding_inrange h
            { UnitId := h.config.UnitID, Addr := a, Quantity := 1,
              IsWrite := true, Args := [v] } rfl ha]
      rw [hca, holdingLoop_skip_one _ _ _ ha' ha16']
      simp only [Option.map_some', Option.some_bind]
      rw [handleHolding_inrange _ _ rfl (by simpa using ha'),
          holdingLoop_read_one _ _ _ _ (by simpa using ha')]
      simp
  · intro ha
    unfold writeThenReadCoils
    rw [handleCoils_inrange h
          { UnitId := h.config.UnitID, Addr := a, Quantity := 1,
            IsWrite := true, Args := [b] } rfl ha,
        coilsLoop_write_one _ _ _ ha]
    simp only [Option.map_some', Option.some_bind]
    rw [handleCoils_inrange _ _ rfl (by simpa using ha),
        coilsLoop_read_one _ _ _ (by simpa using ha)]
    rw [list_getD_set_self _ _ _ _ ha]
    simp

/-- C1 witness: on the test handler, writing 12345 at address 3 then
reading it back returns 12345, and a coil round-trips at address 0. -/
theorem C1_write_read_roundtrip_witness :
    writeThenReadHolding hT 3 12345 = some (Except.ok [12345]) ∧
    writeThenReadCoils hT 0 true = some (Except.ok [true]) :=
  ⟨(C1_write_read_roundtrip hT 3 12345 true).1 (by decide) (by decide)
     (by decide),
   (C1_write_read_roundtrip hT 3 12345 true).2.2.2 (by decide)⟩

/-- C2: with matching identity, a request whose address plus quantity
exceeds the target table length fails with IllegalDataAddress and leaves
all four tables unmodified, for each table kind; conversely an in-range
request with matching identity never produces IllegalDataAddress. -/
theorem C2_bounds_rejection (h : ModbusHandler) (u a q : Nat) (w : Bool)
    (argsH : List Nat) (argsC : List Bool) (hu : u = h.config.UnitID) :
    (h.holdingRegs.length < a + q →
      holdingResult h ⟨u, a, q, w, argsH⟩ =
        some (Except.error ModbusError.ErrIllegalDataAddress, tablesOf h)) ∧
    (h.inputRegs.length < a + q →
      inputResult h ⟨u, a, q⟩ =
        some (Except.error ModbusError.ErrIllegalDataAddress, tablesOf h)) ∧
    (h.coils.length < a + q →
      coilsResult h ⟨u, a, q, w, argsC⟩ =
        some (Except.error ModbusError.ErrIllegalDataAddress, tablesOf h)) ∧
    (h.discreteInputs.length < a + q →
      discreteResult h ⟨u, a, q⟩ =
        some (Except.error ModbusError.ErrIllegalDataAddress, tablesOf h)) ∧
    (a + q ≤ h.holdingRegs.length →
      ∀ p, HandleHoldingRegisters h ⟨u, a, q, w, argsH⟩ = some p →
        p.2 ≠ Except.error ModbusError.ErrIllegalDataAddress) ∧
    (a + q ≤ h.inputRegs.length →
      ∀ p, HandleInputRegisters h ⟨u, a, q⟩ = some p →
        p.2 ≠ Except.error ModbusError.ErrIllegalDataAddress) ∧
    (a + q ≤ h.coils.length →
      ∀ p, HandleCoils h ⟨u, a, q, w, argsC⟩ = some p →
        p.2 ≠ Except.error ModbusError.ErrIllegalDataAddress) ∧
    (a + q ≤ h.discreteInputs.length →
      ∀ p, HandleDiscreteInputs h ⟨u, a, q⟩ = some p →
        p.2 ≠ Except.error ModbusError.ErrIllegalDataAddress) := by
  refine ⟨?_, ?_, ?_, ?_, ?_, ?_, ?_, ?_⟩
  · intro hb
    unfold holdingResult
    rw [handleHolding_oob h _ hu hb]
    simp [tablesOf]
  · intro hb
    unfold inputResult
    rw [handleInput_oob h _ hu hb]
    simp [tablesOf]
  · intro hb
    unfold coilsResult
    rw [handleCoils_oob h _ hu hb]
    simp [tablesOf]
  · intro hb
    unfold discreteResult
    rw [handleDiscrete_oob h _ hu hb]
    simp [tablesOf]
  · intro hb p hp
    rw [handleHolding_inrange h _ hu hb, Option.map_eq_some'] at hp
    obtain ⟨pr, _, hfp⟩ := hp
    rw [← hfp]
    simp
  · intro hb p hp
    rw [handleInput_inrange h _ hu hb, Option.map_eq_some'] at hp
    obtain ⟨pr, _, hfp⟩ := hp
    rw [← hfp]
    simp
  · intro hb p hp
    rw [handleCoils_inrange h _ hu hb, Option.map_eq_some'] at hp
    obtain ⟨pr, _, hfp⟩ := hp
    rw [← hfp]
    simp
  · intro hb p hp
    rw [handleDiscrete_inrange h _ hu hb, Option.map_eq_some'] at hp
    obtain ⟨pr, _, hfp⟩ := hp
    rw [← hfp]
    simp

/-- C2 witness: reading 5 registers from address 19 of the 20-slot test
table is rejected with IllegalDataAddress and the tables are untouched. -/
theorem C2_bounds_rejection_witness :
    holdingResult hT
        { UnitId := 1, Addr := 19, Quantity := 5, IsWrite := false,
          Args := [] } =
      some (Except.error ModbusError.ErrIllegalDataAddress, tablesOf hT) :=
  (C2_bounds_rejection hT 1 19 5 false [] [] rfl).1 (by decide)

/-- C3: a request whose identity differs from the configured unit identity
is rejected with IllegalFunction by each of the four handlers, with every
table untouched, and without consulting address bounds. -/
theorem C3_identity_rejection (h : ModbusHandler) (u a q : Nat) (w : Bool)
    (argsH : List Nat) (argsC : List Bool) (hu : u ≠ h.config.UnitID) :
    holdingResult h ⟨u, a, q, w, argsH⟩ =
      some (Except.error ModbusError.ErrIllegalFunction, tablesOf h) ∧
    inputResult h ⟨u, a, q⟩ =
      some (Except.error ModbusError.ErrIllegalFunction, tablesOf h) ∧
    coilsResult h ⟨u, a, q, w, argsC⟩ =
      some (Except.error ModbusError.ErrIllegalFunction, tablesOf h) ∧
    discreteResult h ⟨u, a, q⟩ =
      some (Except.error ModbusError.ErrIllegalFunction, tablesOf h) := by
  refine ⟨?_, ?_, ?_, ?_⟩
  · unfold holdingResult
    rw [handleHolding_mismatch h _ hu]
    simp [tablesOf]
  · unfold inputResult
    rw [handleInput_mismatch h _ hu]
    simp [tablesOf]
  · unfold coilsResult
    rw [handleCoils_mismatch h _ hu]
    simp [tablesOf]
  · unfold discreteResult
    rw [handleDiscrete_mismatch h _ hu]
    simp [tablesOf]

/-- C3 witness: identity 99 against the test handler configured for
identity 1 is rejected with IllegalFunction even though the requested
range 100..149 is also far out of bounds. -/
theorem C3_identity_rejection_witness :
    holdingResult hT
        { UnitId := 99, Addr := 100, Quantity := 50, IsWrite := false,
          Args := [] } =
      some (Except.error ModbusError.ErrIllegalFunction, tablesOf hT) :=
  (C3_identity_rejection hT 99 100 50 false [] [] (by decide)).1

/-- C5 (amended): for every configured seed list, construction (given the
counter-address precondition) never fails because of a seed entry; an
entry is skipped with a warning exactly when its address fails the check
the code performs — address at least MaxRegisters truncated to uint16
(equal to MaxRegisters whenever MaxRegisters is at most 65535) — or its
table kind is unrecognized; every other entry is applied to its table,
the last entry for a slot winning; and after seeding the counter slot and
the in-memory counter are 0, overriding any seed value there. -/
theorem C5_seeding (cfg : ModbusConfig)
    (hca : cfg.CounterAddress < cfg.MaxRegisters) :
    seedResultWarnings cfg = some (cfg.InitialData.filterMap (warnOf cfg)) ∧
    seedResultCounter cfg = some 0 ∧
    seedResultHoldingAt cfg cfg.CounterAddress = some 0 ∧
    (∀ a : Nat, a ≠ cfg.CounterAddress →
      seedResultHoldingAt cfg a = some (seedValueNat cfg "holding" a)) ∧
    (∀ a : Nat, seedResultInputAt cfg a =
      some (seedValueNat cfg "input" a)) ∧
    (∀ a : Nat, seedResultCoilAt cfg a =
      some (seedValueBool cfg "coil" a)) ∧
    (∀ a : Nat, seedResultDiscreteAt cfg a =
      some (seedValueBool cfg "discrete" a)) :=
  ⟨construct_warnings cfg hca, construct_counter cfg hca,
   construct_holding_ca cfg hca,
   fun a ha => construct_holding_at cfg hca a ha,
   fun a => construct_input_at cfg hca a,
   fun a => construct_coil_at cfg hca a,
   fun a => construct_discrete_at cfg hca a⟩

/-- C5 witness: seeding the 20-slot test configuration applies the entry
at address 3, warns about the out-of-range address 25 and about the
unknown kind, and stores 9 at address 3. -/
theorem C5_seeding_witness :
    seedResultWarnings cfgSeeds =
      some [SeedWarning.addressOutOfBounds 25 20,
            SeedWarning.unknownType "bogus"] ∧
    seedResultHoldingAt cfgSeeds 3 = some 9 :=
  ⟨((C5_seeding cfgSeeds (by decide)).1).trans (by decide),
   (((C5_seeding cfgSeeds (by decide)).2.2.2.1) 3 (by decide)).trans
     (by decide)⟩

/-- C5 counterexample: with MaxRegisters 65546 the seed guard compares the
entry address with uint16(65546) = 10, so the seed entry at address 100 —
in range according to the claim, since 100 < 65546 — is skipped with an
out-of-bounds warning and the holding table keeps 0 at address 100 instead
of the seeded 7. -/
theorem C5_counterexample :
    100 < cfgC5.MaxRegisters ∧
    cfgC5.InitialData =
      [{ Type' := "holding", Address := 100, Value := 7 }] ∧
    seedResultHoldingAt cfgC5 100 = some 0 ∧
    seedResultWarnings cfgC5 =
      some [SeedWarning.addressOutOfBounds 100 65546] := by
  refine ⟨by decide, rfl, ?_, ?_⟩
  · have h := construct_holding_at cfgC5 (by decide) 100 (by decide)
    rw [h]
    decide
  · have h := construct_warnings cfgC5 (by decide)
    rw [h]
    decide

/-- C8 (amended): a request whose identity differs from the configured
identity advances both the error counter and the total-requests counter by
exactly one, leaves the start timestamp unchanged, and touches no table —
for each of the four handlers. -/
theorem C8_identity_stats (h : ModbusHandler) (u a q : Nat) (w : Bool)
    (argsH : List Nat) (argsC : List Bool) (hu : u ≠ h.config.UnitID) :
    (statsAfterHolding h ⟨u, a, q, w, argsH⟩ =
      some { RequestsHandled := h.stats.RequestsHandled + 1,
             Errors := h.stats.Errors + 1,
             StartTime := h.stats.StartTime }) ∧
    (statsAfterInput h ⟨u, a, q⟩ =
      some { RequestsHandled := h.stats.RequestsHandled + 1,
             Errors := h.stats.Errors + 1,
             StartTime := h.stats.StartTime }) ∧
    (statsAfterCoils h ⟨u, a, q, w, argsC⟩ =
      some { RequestsHandled := h.stats.RequestsHandled + 1,
             Errors := h.stats.Errors + 1,
             StartTime := h.stats.StartTime }) ∧
    (statsAfterDiscrete h ⟨u, a, q⟩ =
      some { RequestsHandled := h.stats.RequestsHandled + 1,
             Errors := h.stats.Errors + 1,
             StartTime := h.stats.StartTime }) ∧
    holdingResult h ⟨u, a, q, w, argsH⟩ =
      some (Except.error ModbusError.ErrIllegalFunction, tablesOf h) := by
  refine ⟨?_, ?_, ?_, ?_, ?_⟩
  · unfold statsAfterHolding
    rw [handleHolding_mismatch h _ hu]
    rfl
  · unfold statsAfterInput
    rw [handleInput_mismatch h _ hu]
    rfl
  · unfold statsAfterCoils
    rw [handleCoils_mismatch h _ hu]
    rfl
  · unfold statsAfterDiscrete
    rw [handleDiscrete_mismatch h _ hu]
    rfl
  · unfold holdingResult
    rw [handleHolding_mismatch h _ hu]
    simp [tablesOf]

/-- C8 witness: one rejected request against the fresh test handler moves
the statistics from (0, 0) to (1, 1) with the timestamp unchanged. -/
theorem C8_identity_stats_witness :
    statsAfterHolding hT
        { UnitId := 99, Addr := 0, Quantity := 1, IsWrite := false,
          Args := [] } =
      some { RequestsHandled := 1, Errors := 1, StartTime := 0 } :=
  (C8_identity_stats hT 99 0 1 false [] [] (by decide)).1

/-- C8 counterexample: the total-requests counter is changed by a rejected
request — it moves from 0 to 1 — refuting the claim that the error counter
is the only statistics field a rejected request changes. -/
theorem C8_counterexample :
    hT.stats.RequestsHandled = 0 ∧
    statsAfterHolding hT
        { UnitId := 99, Addr := 0, Quantity := 1, IsWrite := false,
          Args := [] } =
      some { RequestsHandled := 1, Errors := 1, StartTime := 0 } :=
  ⟨rfl, by rfl⟩

/-- C9: every handler invocation, successful or failed, advances the
total-requests counter by exactly one (before any identity or bounds
check); a failed invocation advances the error counter by exactly one and
a successful one leaves it unchanged; both counters are non-decreasing;
the start timestamp never changes — the counter updater and the
statistics snapshot leave the statistics untouched as well; consequently
the error count never exceeds the request count once below it. -/
theorem C9_stats_monotone (h : ModbusHandler)
    (r1 : HoldingRegistersRequest) (r2 : InputRegistersRequest)
    (r3 : CoilsRequest) (r4 : DiscreteInputsRequest) :
    (∀ p, HandleHoldingRegisters h r1 = some p →
      StatsAdvance h.stats p.1.stats (exceptIsError p.2)) ∧
    (∀ p, HandleInputRegisters h r2 = some p →
      StatsAdvance h.stats p.1.stats (exceptIsError p.2)) ∧
    (∀ p, HandleCoils h r3 = some p →
      StatsAdvance h.stats p.1.stats (exceptIsError p.2)) ∧
    (∀ p, HandleDiscreteInputs h r4 = some p →
      StatsAdvance h.stats p.1.stats (exceptIsError p.2)) ∧
    (UpdateCounter h).1.stats = h.stats ∧
    GetStats h = h.stats :=
  ⟨holding_statsAdvance h r1, input_statsAdvance h r2,
   coils_statsAdvance h r3, discrete_statsAdvance h r4,
   updateCounter_stats h, rfl⟩

/-- C9 witness: the rejected request of the counterexample configuration
advances the statistics of the fresh test handler as StatsAdvance
describes, with the error flag set. -/
theorem C9_stats_monotone_witness :
    StatsAdvance hT.stats hTrejected.stats true :=
  (C9_stats_monotone hT
      { UnitId := 99, Addr := 0, Quantity := 1, IsWrite := false,
        Args := [] }
      { UnitId := 1, Addr := 0, Quantity := 1 }
      { UnitId := 1, Addr := 0, Quantity := 1, IsWrite := false,
        Args := [] }
      { UnitId := 1, Addr := 0, Quantity := 1 }).1
    (hTrejected, Except.error ModbusError.ErrIllegalFunction) (by rfl)

/-- C10 (amended): a write request that passes the identity and bounds
checks and supplies at least Quantity argument values never reaches an
out-of-range access in HandleHoldingRegisters or HandleCoils; with fewer
argument values than Quantity, HandleCoils always reaches an out-of-range
Args access (the modelled none), and HandleHoldingRegisters reaches one
whenever some under-supplied position fails the protection test the code
performs — its absolute address truncated to uint16, (Addr + j) mod
65536, differs from the protected counter address.  A position whose
truncated address equals the counter address never consults Args, so a
write covering only such positions completes despite the shortage. -/
theorem C10_args_safety (h : ModbusHandler) (rH : HoldingRegistersRequest)
    (rC : CoilsRequest) :
    (rH.UnitId = h.config.UnitID →
      rH.Addr + rH.Quantity ≤ h.holdingRegs.length →
      rH.Quantity ≤ rH.Args.length →
      (HandleHoldingRegisters h rH).isSome = true) ∧
    (rC.UnitId = h.config.UnitID →
      rC.Addr + rC.Quantity ≤ h.coils.length →
      rC.Quantity ≤ rC.Args.length →
      (HandleCoils h rC).isSome = true) ∧
    (rH.UnitId = h.config.UnitID →
      rH.Addr + rH.Quantity ≤ h.holdingRegs.length →
      rH.IsWrite = true →
      ∀ j : Nat, rH.Args.length ≤ j → j < rH.Quantity →
        (rH.Addr + j) % 65536 ≠ h.config.CounterAddress →
        HandleHoldingRegisters h rH = none) ∧
    (rC.UnitId = h.config.UnitID →
      rC.Addr + rC.Quantity ≤ h.coils.length →
      rC.IsWrite = true → rC.Args.length < rC.Quantity →
      HandleCoils h rC = none) := by
  refine ⟨?_, ?_, ?_, ?_⟩
  · intro hu hb hargs
    rw [handleHolding_inrange h rH hu hb]
    obtain ⟨out, hout⟩ := holdingLoop_isSome h.config.CounterAddress
      rH.IsWrite rH.Args rH.Addr rH.Quantity 0 h.holdingRegs (by omega)
      (by omega)
    rw [hout]
    rfl
  · intro hu hb hargs
    rw [handleCoils_inrange h rC hu hb]
    obtain ⟨out, hout⟩ := coilsLoop_isSome rC.Args rC.Addr rC.IsWrite
      rC.Quantity 0 h.coils (by omega) (by omega)
    rw [hout]
    rfl
  · intro hu hb hw j hj1 hj2 hj3
    rw [handleHolding_inrange h rH hu hb, hw]
    rw [holdingLoop_none h.config.CounterAddress rH.Args rH.Addr
      rH.Quantity 0 h.holdingRegs j (by omega) (by omega) hj1 hj3]
    rfl
  · intro hu hb hw hargs
    rw [handleCoils_inrange h rC hu hb, hw]
    rw [coilsLoop_none rC.Args rC.Addr rC.Quantity 0 h.coils (by omega)
      (by omega)]
    rfl

/-- C10 witness: a two-register write with two argument values returns
normally, with no out-of-range access. -/
theorem C10_args_safety_witness :
    (HandleHoldingRegisters hT
        { UnitId := 1, Addr := 0, Quantity := 2, IsWrite := true,
          Args := [7, 8] }).isSome = true :=
  (C10_args_safety hT
      { UnitId := 1, Addr := 0, Quantity := 2, IsWrite := true,
        Args := [7, 8] }
      { UnitId := 1, Addr := 0, Quantity := 1, IsWrite := false,
        Args := [] }).1 (by decide) (by decide) (by decide)

/-- C10 counterexample: a holding write addressed exactly at the protected
counter address with an empty Args list supplies fewer values than
Quantity and passes the identity and bounds checks, yet completes without
any out-of-range access, because the protected position never consults
Args — refuting the claim that every under-supplied write reaches an
out-of-range access. -/
theorem C10_counterexample :
    hT.config.CounterAddress = 5 ∧
    List.length ([] : List Nat) < 1 ∧
    (HandleHoldingRegisters hT
        { UnitId := 1, Addr := 5, Quantity := 1, IsWrite := true,
          Args := [] }).isSome = true :=
  ⟨rfl, by decide, by decide⟩

end SPModbus
